import Mathlib

/-
Verification of the paginated-search aggregation and batch-acquisition core
of `ug` (src/ug/maps.py, src/ug/util.py).

The embedding is shallow: Python exceptions become `Except`, the Google Maps
client becomes an explicit capability record, and the observable remote side
effects of one call (geocode requests, places requests with their arguments,
sleeps, progress lines, sink writes) are collected into an event trace.
Pagination can loop forever on a remote that always returns a continuation
token, so the page-fetch loop takes explicit fuel; running out of fuel marks
the call as still running, never as returning.
-/

namespace Ug

/-- Decidable equality for `Except`, used to evaluate batch outcomes on
concrete inputs. -/
instance {E A : Type} [DecidableEq E] [DecidableEq A] : DecidableEq (Except E A) :=
  fun a b => match a, b with
  | .error e, .error f =>
    if h : e = f then isTrue (by rw [h]) else isFalse (by simp [h])
  | .ok x, .ok y =>
    if h : x = y then isTrue (by rw [h]) else isFalse (by simp [h])
  | .error _, .ok _ => isFalse (by simp)
  | .ok _, .error _ => isFalse (by simp)

/-- A scalar element of a Python 2-element coordinate pair: either a value
`float()` converts (modelled by the rational it converts to) or a
non-numeric value on which `float()` raises. -/
inductive PyScalar where
  | num (q : ℚ)
  | nonNum (s : String)
deriving DecidableEq

/-- Python `float(x)`: `some q` when `x` is numeric, `none` (an exception)
otherwise. -/
def PyScalar.toFloat? : PyScalar → Option ℚ
  | .num q => some q
  | .nonNum _ => none

/-- The `center_location` argument of `search_maps`: a string (city name), a
2-element tuple/list, or anything else. -/
inductive CenterLocation where
  | str (s : String)
  | pair (x y : PyScalar)
  | other
deriving DecidableEq

/-- One geocoding candidate, exposing `candidate['geometry']['location']`. -/
structure GeoCandidate where
  lat : ℚ
  lng : ℚ
deriving DecidableEq

/-- One response of `gmaps_client.places`: a page of results and an optional
continuation token. -/
structure PlacesResponse (α τ : Type) where
  results : List α
  next_page_token : Option τ
deriving DecidableEq

/-- The Google Maps client capability used by `search_maps`: `geocode` and
`places` (the latter taking an optional `page_token`, mirroring the two call
sites in `maps_paged_results`). -/
structure GMapsClient (α τ : Type) where
  geocode : String → List GeoCandidate
  places : String → Option τ → ℚ × ℚ → Int → PlacesResponse α τ

/-- Observable remote/side effects of one `search_maps` call, in order. -/
inductive CallEvent (τ : Type) where
  | geocode (query : String)
  | places (query : String) (page_token : Option τ) (location : ℚ × ℚ) (radius : Int)
  | sleep (seconds : Int)
deriving DecidableEq

/-- The error conditions `search_maps` raises while resolving the center
location (spec names: LocationNotFound, InvalidCoordinates,
UnsupportedLocationType). -/
inductive UgError where
  | locationNotFound (s : String)
  | invalidCoordinates
  | unsupportedLocationType
deriving DecidableEq

/-- How one `search_maps` call ends: raising one of the resolution errors,
returning a record list, or (fuel exhausted) still running inside the
pagination loop. -/
inductive SearchOutcome (α : Type) where
  | raised (e : UgError)
  | returned (l : List α)
  | running
deriving DecidableEq

/-- The full observable behaviour of one `search_maps` call: its event trace
and how it ended. -/
structure SearchResult (α τ : Type) where
  trace : List (CallEvent τ)
  outcome : SearchOutcome α
deriving DecidableEq

/-- The fused lazy consumption `list(islice(chain.from_iterable(gen), k))`
of the page generator `maps_paged_results`, entered with the first fetched
response `r` in hand.  `islice` pulls records one by one:
if the current page covers the `k` still needed, it takes them and stops
without touching the generator again; otherwise it drains the page and
`chain` resumes the generator, which sleeps and issues the continuation
fetch exactly when the last response carried a `next_page_token`.
`fuel` bounds the number of continuation fetches (`none` records, trace:
the Python call would still be fetching). -/
def pagesLoop (client : GMapsClient α τ) (query : String) (coords : ℚ × ℚ)
    (radius : Int) (secs : Int) :
    Nat → Nat → PlacesResponse α τ → Option (List α) × List (CallEvent τ)
  | fuel, k, r =>
    if k ≤ r.results.length then
      (some (r.results.take k), [])
    else
      match r.next_page_token with
      | none => (some r.results, [])
      | some t =>
        match fuel with
        | 0 => (none, [])
        | fuel' + 1 =>
          let r' := client.places query (some t) coords radius
          let rest := pagesLoop client query coords radius secs fuel' (k - r.results.length) r'
          (rest.1.map (r.results ++ ·),
            CallEvent.sleep secs :: CallEvent.places query (some t) coords radius :: rest.2)

/-- The paginated fetch + flatten + cap part of `search_maps`, once the
center is resolved to `coords`; `tr0` is the trace accumulated so far (the
geocode request, if one was made).  With `n_results = 0` the `islice` never
pulls, so the lazily-created generator never issues a request. -/
def searchAt (client : GMapsClient α τ) (query : String) (coords : ℚ × ℚ)
    (radius : Int) (n_results : Nat) (secs : Int) (fuel : Nat)
    (tr0 : List (CallEvent τ)) : SearchResult α τ :=
  if n_results = 0 then { trace := tr0, outcome := .returned [] }
  else
    let r0 := client.places query none coords radius
    let res := pagesLoop client query coords radius secs fuel n_results r0
    { trace := tr0 ++ CallEvent.places query none coords radius :: res.2,
      outcome := match res.1 with
        | some l => .returned l
        | none => .running }

/-- Shallow embedding of `search_maps` (src/ug/maps.py): resolve the center
location (geocoding a string, `float`-parsing a 2-element pair, rejecting
anything else), then fetch, flatten and cap the paged results. -/
def search_maps (query : String) (center_location : CenterLocation) (radius : Int)
    (client : GMapsClient α τ) (n_results : Nat) (secs : Int) (fuel : Nat) :
    SearchResult α τ :=
  match center_location with
  | .str s =>
    match client.geocode s with
    | [] => { trace := [.geocode s], outcome := .raised (.locationNotFound s) }
    | c :: _ =>
      searchAt client query (c.lat, c.lng) radius n_results secs fuel [.geocode s]
  | .pair x y =>
    match x.toFloat?, y.toFloat? with
    | some a, some b => searchAt client query (a, b) radius n_results secs fuel []
    | _, _ => { trace := [], outcome := .raised .invalidCoordinates }
  | .other => { trace := [], outcome := .raised .unsupportedLocationType }

/-- The one write primitive the batch driver performs per location through
the normalized writer: `m[key] = value` (item assignment) or
`f(key, value)` (call). -/
inductive WriteEffect (K V : Type) where
  | setitem (k : K) (v : V)
  | call (k : K) (v : V)
deriving DecidableEq

/-- A Python `save_result` argument: the flags say whether the object is
callable and whether it is a mapping; `raises` tells which invocations of
the underlying write raise (modelling `__setitem__`/call exceptions). -/
structure WriterSpec (K V E : Type) where
  isCallable : Bool
  isMapping : Bool
  raises : K → V → Option E

/-- `ensure_kv_writer` (src/ug/util.py): a callable spec is used as the
writer function itself; otherwise the mapping's `__setitem__` is the
writer. -/
def ensure_kv_writer (w : WriterSpec K V E) : K → V → Except E (WriteEffect K V) :=
  if w.isCallable then
    fun k v => match w.raises k v with
      | some e => .error e
      | none => .ok (.call k v)
  else
    fun k v => match w.raises k v with
      | some e => .error e
      | none => .ok (.setitem k v)

/-- Observable side effects of the batch driver: the single-line progress
report (index and key) and the sink write. -/
inductive BatchEvent (K V : Type) where
  | progress (i : Nat) (key : K)
  | write (w : WriteEffect K V)
deriving DecidableEq

/-- The record `dict(i=i, search_query=search_query, location=location, e=e)`
yielded for a failed location source (`location` is the loop's location
variable at the moment of the raise, `None` encoded as `none`). -/
structure ErrorRecord (L E : Type) where
  i : Nat
  search_query : String
  location : Option L
  e : E
deriving DecidableEq

/-- One iteration of the `search_results_gen` loop body
(src/ug/maps.py lines 215-224): extract location, extract key, print the
progress line, search, save.  `loc0` is the current value of the `location`
variable (initially `None`); returned are the events emitted, the location
variable's new value, and either success or the captured exception. -/
def runItem (get_location get_key : σ → Except E L)
    (searchFn : L → Except E R) (save : L → R → Except E (WriteEffect L R))
    (i : Nat) (loc0 : Option L) (src : σ) :
    List (BatchEvent L R) × Option L × Except E Unit :=
  match get_location src with
  | .error e => ([], loc0, .error e)
  | .ok location =>
    match get_key src with
    | .error e => ([], some location, .error e)
    | .ok key =>
      match searchFn location with
      | .error e => ([.progress i key], some location, .error e)
      | .ok r =>
        match save key r with
        | .error e => ([.progress i key], some location, .error e)
        | .ok w => ([.progress i key, .write w], some location, .ok ())

/-- `errors = list(search_results_gen())` over the (already sliced) sources:
processes them in order, threading the `location` variable; with
`raise_on_error` the first exception escapes `list(...)`, otherwise each
exception becomes one yielded error record and the loop continues. -/
def batchLoop (search_query : String) (get_location get_key : σ → Except E L)
    (searchFn : L → Except E R) (save : L → R → Except E (WriteEffect L R))
    (raise_on_error : Bool) :
    Nat → Option L → List σ → List (BatchEvent L R) × Except E (List (ErrorRecord L E))
  | _, _, [] => ([], .ok [])
  | i, loc, src :: rest =>
    match runItem get_location get_key searchFn save i loc src with
    | (ev, loc', Except.ok _) =>
      let next := batchLoop search_query get_location get_key searchFn save
        raise_on_error (i+1) loc' rest
      (ev ++ next.1, next.2)
    | (ev, loc', Except.error e) =>
      if raise_on_error then (ev, .error e)
      else
        let next := batchLoop search_query get_location get_key searchFn save
          raise_on_error (i+1) loc' rest
        (ev ++ next.1,
          next.2.map (fun errs => ⟨i, search_query, loc', e⟩ :: errs))

/-- `itertools.islice(xs, start, stop)` over a finite source: the elements
whose original index lies in the half-open range `[start, stop)`. -/
def pySlice (xs : List σ) (start : Nat) (stop : Option Nat) : List σ :=
  match stop with
  | none => xs.drop start
  | some s => (xs.take s).drop start

/-- Shallow embedding of `acquire_maps_search_results_from_different_locations`
(src/ug/maps.py lines 173-234).  `searchFn` abstracts
`search_maps(search_query, location, radius_in_meters=...)`: the batch
claims quantify over the per-location search behaviour.  Keys share the
locations' type `L` because an unspecified `get_key` defaults to
`get_location` (line 207).  Returns the event trace and what
`list(search_results_gen())` produced (error list, or the escaped
exception). -/
def acquire_maps_search_results_from_different_locations
    (search_query : String) (locations : List σ) (save_result : WriterSpec L R E)
    (get_location : σ → Except E L) (get_key : Option (σ → Except E L))
    (searchFn : L → Except E R) (raise_on_error : Bool)
    (start_index : Nat) (stop_index : Option Nat) :
    List (BatchEvent L R) × Except E (List (ErrorRecord L E)) :=
  let save := ensure_kv_writer save_result
  let gk := match get_key with
    | none => get_location
    | some g => g
  let sliced := pySlice locations start_index stop_index
  batchLoop search_query get_location gk searchFn save raise_on_error 0 none sliced

/-! Test doubles and observation helpers used by the claims. -/

/-- A places backend serving a fixed finite list of pages: the continuation
token is the list of pages still to serve, and the response carrying the
last page has no token. -/
def listResp : List (List α) → PlacesResponse α (List (List α))
  | [] => { results := [], next_page_token := none }
  | p :: rest =>
    { results := p, next_page_token := if rest.isEmpty then none else some rest }

/-- A client over `listResp`: `geocode` always answers `geo`; the first
`places` call serves the head of `ps`, each continuation call serves the
next page. -/
def listClient (ps : List (List α)) (geo : List GeoCandidate) :
    GMapsClient α (List (List α)) where
  geocode := fun _ => geo
  places := fun _ tok _ _ =>
    match tok with
    | none => listResp ps
    | some t => listResp t

/-- A places backend with a continuation token after every page (an
unbounded page stream): the first call serves `pages 0` with token `1`, and
the call with token `t` serves `pages t` with token `t+1`. -/
def streamClient (pages : Nat → List α) (geo : List GeoCandidate) :
    GMapsClient α Nat where
  geocode := fun _ => geo
  places := fun _ tok _ _ =>
    match tok with
    | none => { results := pages 0, next_page_token := some 1 }
    | some t => { results := pages t, next_page_token := some (t+1) }

/-- Total record count of pages `i, i+1, ..., i+m-1` of a page stream. -/
def cumFrom (pages : Nat → List α) (i : Nat) : Nat → Nat
  | 0 => 0
  | m + 1 => (pages i).length + cumFrom pages (i+1) m

/-- Concatenation of pages `i, ..., i+m-1` of a page stream. -/
def flattenFrom (pages : Nat → List α) (i : Nat) : Nat → List α
  | 0 => []
  | m + 1 => pages i ++ flattenFrom pages (i+1) m

/-- Whether a call event is a places (search) request. -/
def isPlacesEvent : CallEvent τ → Bool
  | .places _ _ _ _ => true
  | _ => false

/-- Whether a call event is a geocode request. -/
def isGeocodeEvent : CallEvent τ → Bool
  | .geocode _ => true
  | _ => false

/-- Whether a call event is a sleep. -/
def isSleepEvent : CallEvent τ → Bool
  | .sleep _ => true
  | _ => false

/-- The indices shown by the progress lines of a batch trace, in order. -/
def progressIndices (tr : List (BatchEvent K V)) : List Nat :=
  tr.filterMap fun ev => match ev with
    | .progress i _ => some i
    | _ => none

/-- The sink writes performed in a batch trace, in order. -/
def writeEvents (tr : List (BatchEvent K V)) : List (WriteEffect K V) :=
  tr.filterMap fun ev => match ev with
    | .write w => some w
    | _ => none

/-- Success or captured exception of the whole try-block for one source
(which of the four steps raises first); this does not depend on the state
of the `location` variable. -/
def itemResult (get_location get_key : σ → Except E L)
    (searchFn : L → Except E R) (save : L → R → Except E (WriteEffect L R))
    (src : σ) : Except E (L × L × WriteEffect L R) :=
  match get_location src with
  | .error e => .error e
  | .ok location =>
    match get_key src with
    | .error e => .error e
    | .ok key =>
      match searchFn location with
      | .error e => .error e
      | .ok r =>
        match save key r with
        | .error e => .error e
        | .ok w => .ok (location, key, w)

/-- One update of the loop's `location` variable by a source: a successful
`get_location` overwrites it, a failing one leaves it. -/
def locUpd (get_location : σ → Except E L) (loc : Option L) (s : σ) : Option L :=
  match get_location s with
  | .ok l => some l
  | .error _ => loc

/-- The write the sink receives for a source, when its whole processing
succeeds. -/
def okWrite (get_location get_key : σ → Except E L)
    (searchFn : L → Except E R) (save : L → R → Except E (WriteEffect L R))
    (s : σ) : Option (WriteEffect L R) :=
  match itemResult get_location get_key searchFn save s with
  | .ok t => some t.2.2
  | .error _ => none

/-- Reference description of the error records `search_results_gen` yields
with `raise_on_error = False`: one per failing source, carrying the running
index and the `location` variable's value at the raise. -/
def expectedErrors (search_query : String) (get_location get_key : σ → Except E L)
    (searchFn : L → Except E R) (save : L → R → Except E (WriteEffect L R)) :
    Nat → Option L → List σ → List (ErrorRecord L E)
  | _, _, [] => []
  | i, loc, s :: rest =>
    match itemResult get_location get_key searchFn save s with
    | .ok _ => expectedErrors search_query get_location get_key searchFn save
        (i+1) (locUpd get_location loc s) rest
    | .error e => ⟨i, search_query, locUpd get_location loc s, e⟩ ::
        expectedErrors search_query get_location get_key searchFn save
          (i+1) (locUpd get_location loc s) rest

/-- The `location` variable's value after the loop has run over `srcs`
starting from `loc`. -/
def locAfter (get_location : σ → Except E L) (loc : Option L) (srcs : List σ) : Option L :=
  srcs.foldl (locUpd get_location) loc



-- test unfolding and the main pagesLoop lemmas

/-- The trace of the continuation fetches of an unbounded page stream:
`c` sleep-then-places pairs, the first continuation using token `t`. -/
def contTrace (query : String) (coords : ℚ × ℚ) (radius secs : Int) :
    Nat → Nat → List (CallEvent Nat)
  | _, 0 => []
  | t, c+1 => .sleep secs :: .places query (some t) coords radius ::
      contTrace query coords radius secs (t+1) c

/-- A concrete mapping sink (non-callable, never raising), for the concrete
batch runs below. -/
def exWriter : WriterSpec Nat Nat String := ⟨false, true, fun _ _ => none⟩

/-- A concrete always-succeeding location extractor. -/
def exGetLoc : Nat → Except String Nat := fun s => .ok (10 * s)

/-- A concrete always-succeeding per-location search. -/
def exSearch : Nat → Except String Nat := fun l => .ok (l + 1)

/-- A location extractor raising exactly on source 3. -/
def exGetLocFail3 : Nat → Except String Nat :=
  fun s => if s = 3 then .error "boom" else .ok (10 * s)

/-- A location extractor raising exactly on source 2. -/
def exGetLocFail2 : Nat → Except String Nat :=
  fun s => if s = 2 then .error "boom" else .ok (10 * s)

/-- A concrete one-page client whose geocoder returns no candidate. -/
def exClient : GMapsClient Nat (List (List Nat)) := listClient [[1]] []

/-- A concrete unbounded page stream: page `i` holds records `2i, 2i+1`. -/
def exPages : Nat → List Nat := fun i => [2 * i, 2 * i + 1]

/-- Unfolding of the embedded batch driver to its loop (lines 205-231 of
src/ug/maps.py: normalize the writer, default the key extractor, slice,
run the generator to a list). -/
theorem acquire_as_batchLoop {σ L R E : Type} (q : String) (srcs : List σ)
    (w : WriterSpec L R E) (gl gk : σ → Except E L) (sf : L → Except E R)
    (roe : Bool) (st : Nat) (sp : Option Nat) :
    acquire_maps_search_results_from_different_locations q srcs w gl (some gk) sf roe st sp
      = batchLoop q gl gk sf (ensure_kv_writer w) roe 0 none (pySlice srcs st sp) := rfl

theorem pagesLoop_events {α τ : Type} (client : GMapsClient α τ) (query : String)
    (coords : ℚ × ℚ) (radius secs : Int) :
    ∀ (fuel k : Nat) (r : PlacesResponse α τ),
      ∀ ev ∈ (pagesLoop client query coords radius secs fuel k r).2,
        ev = .sleep secs ∨ ∃ t, ev = .places query (some t) coords radius := by
  intro fuel
  induction fuel with
  | zero =>
    intro k r ev hev
    rw [pagesLoop] at hev
    split at hev
    · simp at hev
    · rcases hr : r.next_page_token with _ | t <;> rw [hr] at hev <;> simp at hev
  | succ f ih =>
    intro k r ev hev
    rw [pagesLoop] at hev
    split at hev
    · simp at hev
    · rcases hr : r.next_page_token with _ | t <;> rw [hr] at hev
      · simp at hev
      · simp only [List.mem_cons] at hev
        rcases hev with h | h | h
        · exact Or.inl h
        · exact Or.inr ⟨t, h⟩
        · exact ih _ _ _ h

theorem pagesLoop_listResp {α : Type} (ps₀ : List (List α)) (geo : List GeoCandidate)
    (query : String) (coords : ℚ × ℚ) (radius secs : Int) :
    ∀ (ps : List (List α)) (fuel k : Nat), ps.length ≤ fuel + 1 →
      (pagesLoop (listClient ps₀ geo) query coords radius secs fuel k (listResp ps)).1
        = some (ps.flatten.take k) := by
  intro ps
  induction ps with
  | nil =>
    intro fuel k _
    rw [pagesLoop]
    simp [listResp]
  | cons p rest ih =>
    intro fuel k hlen
    rw [pagesLoop]
    rcases le_or_lt k p.length with hk | hk
    · simp [listResp, hk, List.take_append_eq_append_take, Nat.sub_eq_zero_of_le hk]
    · rcases hrest : rest with _ | ⟨q, rest'⟩
      · simp [listResp, Nat.not_le.mpr hk]
        omega
      · subst hrest
        rcases fuel with _ | f
        · simp at hlen
        · have h2 : (q :: rest').length ≤ f + 1 := by simp at hlen ⊢; omega
          have hcl : (listClient ps₀ geo).places query (some (q :: rest')) coords radius
              = listResp (q :: rest') := rfl
          have hi0 := ih f (k - p.length) h2
          simp only [listResp] at hi0
          simp only [listResp, List.isEmpty_cons, if_false, Nat.not_le.mpr hk,
            Bool.false_eq_true, reduceIte, hcl, hi0, Option.map_some]
          simp [List.take_append_eq_append_take,
            List.take_of_length_le (Nat.le_of_lt hk)]

theorem pagesLoop_stream {α : Type} (pages : Nat → List α) (geo : List GeoCandidate)
    (query : String) (coords : ℚ × ℚ) (radius secs : Int) :
    ∀ (m i k fuel : Nat), 1 ≤ k → k ≤ cumFrom pages i (m+1) →
      (∀ m' < m + 1, cumFrom pages i m' < k) → m ≤ fuel →
      pagesLoop (streamClient pages geo) query coords radius secs fuel k
          ⟨pages i, some (i+1)⟩
        = (some ((flattenFrom pages i (m+1)).take k),
           contTrace query coords radius secs (i+1) m) := by
  intro m
  induction m with
  | zero =>
    intro i k fuel h1 h2 h3 _
    rw [pagesLoop]
    have hk : k ≤ (pages i).length := by
      simp [cumFrom] at h2; omega
    simp [hk, contTrace, flattenFrom, cumFrom, List.take_append_eq_append_take,
      Nat.sub_eq_zero_of_le hk]
  | succ m ih =>
    intro i k fuel h1 h2 h3 hfuel
    have hlen : (pages i).length < k := by
      have := h3 1 (by omega); simp [cumFrom] at this; omega
    rcases fuel with _ | f
    · omega
    rw [pagesLoop]
    have hcl : (streamClient pages geo).places query (some (i+1)) coords radius
        = ⟨pages (i+1), some (i+1+1)⟩ := rfl
    have hih := ih (i+1) (k - (pages i).length) f
      (by omega)
      (by simp [cumFrom] at h2 ⊢; omega)
      (by
        intro m' hm'
        have := h3 (m'+1) (by omega)
        simp [cumFrom] at this ⊢
        omega)
      (by omega)
    simp only [Nat.not_le.mpr hlen, if_false, Bool.false_eq_true, reduceIte, hcl, hih]
    simp only [Option.map_some']
    rw [show flattenFrom pages i (m+1+1) = pages i ++ flattenFrom pages (i+1) (m+1) from rfl,
      List.take_append_eq_append_take, List.take_of_length_le (Nat.le_of_lt hlen)]
    rfl

section BatchLemmas

variable {σ L R E : Type}
variable (gl gk : σ → Except E L) (sf : L → Except E R)
variable (save : L → R → Except E (WriteEffect L R))

theorem itemResult_ok_gl {s : σ} {l k : L} {w : WriteEffect L R}
    (h : itemResult gl gk sf save s = .ok (l, k, w)) : gl s = .ok l := by
  rcases h1 : gl s with e1 | l' <;> simp [itemResult, h1] at h
  rcases h2 : gk s with e2 | k' <;> simp [h2] at h
  rcases h3 : sf l' with e3 | r <;> simp [h3] at h
  rcases h4 : save k' r with e4 | w' <;> simp [h4] at h
  obtain ⟨hl, hk, hw⟩ := h
  subst hl
  rfl

theorem runItem_ok {s : σ} {l k : L} {w : WriteEffect L R} (i : Nat) (loc : Option L)
    (h : itemResult gl gk sf save s = .ok (l, k, w)) :
    runItem gl gk sf save i loc s = ([.progress i k, .write w], some l, .ok ()) := by
  rcases h1 : gl s with e1 | l' <;> simp [itemResult, h1] at h
  rcases h2 : gk s with e2 | k' <;> simp [h2] at h
  rcases h3 : sf l' with e3 | r <;> simp [h3] at h
  rcases h4 : save k' r with e4 | w' <;> simp [h4] at h
  obtain ⟨hl, hk, hw⟩ := h
  subst hl; subst hk; subst hw
  simp [runItem, h1, h2, h3, h4]

theorem runItem_err {s : σ} {e : E} (i : Nat) (loc : Option L)
    (h : itemResult gl gk sf save s = .error e) :
    (runItem gl gk sf save i loc s).2.2 = .error e ∧
      writeEvents (runItem gl gk sf save i loc s).1 = [] := by
  rcases h1 : gl s with e1 | l' <;> simp [itemResult, h1] at h
  · subst h; simp [runItem, h1, writeEvents]
  · rcases h2 : gk s with e2 | k' <;> simp [h2] at h
    · subst h; simp [runItem, h1, h2, writeEvents]
    · rcases h3 : sf l' with e3 | r <;> simp [h3] at h
      · subst h; simp [runItem, h1, h2, h3, writeEvents]
      · rcases h4 : save k' r with e4 | w' <;> simp [h4] at h
        subst h; simp [runItem, h1, h2, h3, h4, writeEvents]

theorem runItem_loc (i : Nat) (loc : Option L) (s : σ) :
    (runItem gl gk sf save i loc s).2.1 = locUpd gl loc s := by
  rcases h1 : gl s with e | l' <;> simp [runItem, locUpd, h1]
  rcases h2 : gk s with e | k' <;> simp [h2]
  rcases h3 : sf l' with e | r <;> simp [h3]
  rcases h4 : save k' r with e | w' <;> simp [h4]

end BatchLemmas

section BatchLoopLemmas

variable {σ L R E : Type}
variable (q : String) (gl gk : σ → Except E L) (sf : L → Except E R)
variable (save : L → R → Except E (WriteEffect L R))

theorem batchLoop_false_snd : ∀ (srcs : List σ) (i : Nat) (loc : Option L),
    (batchLoop q gl gk sf save false i loc srcs).2
      = .ok (expectedErrors q gl gk sf save i loc srcs) := by
  intro srcs
  induction srcs with
  | nil => intro i loc; rfl
  | cons s rest ih =>
    intro i loc
    rw [batchLoop, expectedErrors]
    rcases hit : itemResult gl gk sf save s with e | t
    · rcases hri : runItem gl gk sf save i loc s with ⟨ev, loc', st⟩
      have hst : st = .error e := by
        have := (runItem_err gl gk sf save i loc hit).1; rw [hri] at this; exact this
      have hloc : loc' = locUpd gl loc s := by
        have := runItem_loc gl gk sf save i loc s; rw [hri] at this; exact this
      subst hst; subst hloc
      simp [ih, Except.map]
    · rcases t with ⟨l, k, w⟩
      rw [runItem_ok gl gk sf save i loc hit]
      have hgl := itemResult_ok_gl gl gk sf save hit
      simp [ih, locUpd, hgl]

theorem batchLoop_false_writes : ∀ (srcs : List σ) (i : Nat) (loc : Option L),
    writeEvents (batchLoop q gl gk sf save false i loc srcs).1
      = srcs.filterMap (okWrite gl gk sf save) := by
  intro srcs
  induction srcs with
  | nil => intro i loc; rfl
  | cons s rest ih =>
    intro i loc
    rw [batchLoop]
    rcases hit : itemResult gl gk sf save s with e | t
    · rcases hri : runItem gl gk sf save i loc s with ⟨ev, loc', st⟩
      have hh := runItem_err gl gk sf save i loc hit
      rw [hri] at hh
      obtain ⟨hst, hev⟩ := hh
      subst hst
      simp only [writeEvents] at hev ⊢
      simp [List.filterMap_append, hev, List.filterMap_cons, okWrite, hit]
      exact ih _ _
    · rcases t with ⟨l, k, w⟩
      rw [runItem_ok gl gk sf save i loc hit]
      simp only [writeEvents] at ih ⊢
      simp [List.filterMap_append, List.filterMap_cons, okWrite, hit]
      exact ih _ _

theorem batchLoop_true_ok_empty : ∀ (srcs : List σ) (i : Nat) (loc : Option L)
    (l : List (ErrorRecord L E)),
    (batchLoop q gl gk sf save true i loc srcs).2 = .ok l → l = [] := by
  intro srcs
  induction srcs with
  | nil =>
    intro i loc l h
    simp [batchLoop] at h
    exact h
  | cons s rest ih =>
    intro i loc l h
    rw [batchLoop] at h
    rcases hri : runItem gl gk sf save i loc s with ⟨ev, loc', st⟩
    rw [hri] at h
    rcases st with e | u
    · simp at h
    · simp at h
      exact ih (i+1) loc' l h

theorem batchLoop_true_abort (e : E) : ∀ (pre : List σ) (bad : σ) (post : List σ)
    (i : Nat) (loc : Option L),
    (∀ s ∈ pre, ∃ t, itemResult gl gk sf save s = .ok t) →
    itemResult gl gk sf save bad = .error e →
    (batchLoop q gl gk sf save true i loc (pre ++ bad :: post)).2 = .error e ∧
      writeEvents (batchLoop q gl gk sf save true i loc (pre ++ bad :: post)).1
        = pre.filterMap (okWrite gl gk sf save) := by
  intro pre
  induction pre with
  | nil =>
    intro bad post i loc _ hbad
    rw [List.nil_append, batchLoop]
    rcases hri : runItem gl gk sf save i loc bad with ⟨ev, loc', st⟩
    have hh := runItem_err gl gk sf save i loc hbad
    rw [hri] at hh
    obtain ⟨hst, hev⟩ := hh
    subst hst
    simpa [writeEvents] using hev
  | cons s pre' ih =>
    intro bad post i loc hpre hbad
    rw [List.cons_append, batchLoop]
    obtain ⟨⟨l, k, w⟩, hok⟩ := hpre s (List.mem_cons_self s pre')
    rw [runItem_ok gl gk sf save i loc hok]
    have ihh := ih bad post (i+1) (some l)
      (fun x hx => hpre x (List.mem_cons_of_mem s hx)) hbad
    simp only [writeEvents] at ihh ⊢
    simp [ihh.1, ihh.2, List.filterMap_append, List.filterMap_cons, okWrite, hok]

end BatchLoopLemmas

section ExpectedErrorsLemmas

variable {σ L R E : Type}
variable (q : String) (gl gk : σ → Except E L) (sf : L → Except E R)
variable (save : L → R → Except E (WriteEffect L R))

theorem locAfter_nil (loc : Option L) : locAfter gl loc [] = loc := rfl

theorem locAfter_cons (loc : Option L) (s : σ) (xs : List σ) :
    locAfter gl loc (s :: xs) = locAfter gl (locUpd gl loc s) xs := rfl

theorem expectedErrors_append : ∀ (xs ys : List σ) (i : Nat) (loc : Option L),
    expectedErrors q gl gk sf save i loc (xs ++ ys)
      = expectedErrors q gl gk sf save i loc xs
        ++ expectedErrors q gl gk sf save (i + xs.length) (locAfter gl loc xs) ys := by
  intro xs
  induction xs with
  | nil => intro ys i loc; simp [expectedErrors, locAfter_nil]
  | cons s xs' ih =>
    intro ys i loc
    have hlen : i + (s :: xs').length = (i + 1) + xs'.length := by
      simp [List.length_cons]; omega
    rw [List.cons_append, expectedErrors, expectedErrors, hlen]
    rcases hit : itemResult gl gk sf save s with e | t <;>
      simp [hit, ih, locAfter_cons]

theorem expectedErrors_allOk : ∀ (xs : List σ) (i : Nat) (loc : Option L),
    (∀ s ∈ xs, ∃ t, itemResult gl gk sf save s = .ok t) →
    expectedErrors q gl gk sf save i loc xs = [] := by
  intro xs
  induction xs with
  | nil => intro i loc _; rfl
  | cons s xs' ih =>
    intro i loc h
    obtain ⟨t, ht⟩ := h s (List.mem_cons_self s xs')
    rw [expectedErrors, ht]
    exact ih (i+1) _ (fun x hx => h x (List.mem_cons_of_mem s hx))

theorem itemResult_gl_err {s : σ} {e : E} (h : gl s = .error e) :
    itemResult gl gk sf save s = .error e := by
  simp [itemResult, h]

theorem okWrite_err {s : σ} {e : E} (h : itemResult gl gk sf save s = .error e) :
    okWrite gl gk sf save s = none := by
  simp [okWrite, h]

theorem filterMap_okWrite_length : ∀ (xs : List σ),
    (∀ s ∈ xs, ∃ t, itemResult gl gk sf save s = .ok t) →
    (xs.filterMap (okWrite gl gk sf save)).length = xs.length := by
  intro xs
  induction xs with
  | nil => intro _; rfl
  | cons s xs' ih =>
    intro h
    obtain ⟨t, ht⟩ := h s (List.mem_cons_self s xs')
    rw [List.filterMap_cons]
    simp only [okWrite, ht]
    simp [ih (fun x hx => h x (List.mem_cons_of_mem s hx))]

end ExpectedErrorsLemmas

section ContTraceLemmas

variable (query : String) (coords : ℚ × ℚ) (radius secs : Int)

theorem contTrace_places_count : ∀ (c t : Nat),
    (contTrace query coords radius secs t c).countP isPlacesEvent = c := by
  intro c
  induction c with
  | zero => intro t; rfl
  | succ c' ih =>
    intro t
    rw [contTrace]
    simp [List.countP_cons, isPlacesEvent, ih]

theorem contTrace_sleep_count : ∀ (c t : Nat),
    (contTrace query coords radius secs t c).countP isSleepEvent = c := by
  intro c
  induction c with
  | zero => intro t; rfl
  | succ c' ih =>
    intro t
    rw [contTrace]
    simp [List.countP_cons, isSleepEvent, ih]

end ContTraceLemmas

theorem ensure_kv_writer_ok {K V E : Type} {w : WriterSpec K V E} {k : K} {v : V}
    {wr : WriteEffect K V} (h : ensure_kv_writer w k v = .ok wr) :
    wr = .setitem k v ∨ wr = .call k v := by
  unfold ensure_kv_writer at h
  rcases hc : w.isCallable with _ | _ <;> rw [hc] at h <;> simp at h <;>
    rcases hr : w.raises k v with _ | e <;> rw [hr] at h <;> simp at h
  · exact Or.inl h.symm
  · exact Or.inr h.symm

/-- Claim C2: for every nonnegative result cap `k` and every sequence of
pages served by the client, `search_maps` returns a list of length
`min(k, total records across all pages)`; the records appear in
page-emission order with intra-page order preserved, and when the cap falls
mid-page only the excess records of that page are discarded (the returned
list is exactly the `k`-prefix of the flattened pages). -/
theorem C2_flatten_cap {α : Type} (ps : List (List α)) (geo : List GeoCandidate)
    (query : String) (a b : ℚ) (radius secs : Int) (k : Nat) :
    (search_maps query (.pair (.num a) (.num b)) radius
        (listClient ps geo) k secs ps.length).outcome
      = .returned (ps.flatten.take k)
    ∧ (ps.flatten.take k).length = min k ps.flatten.length := by
  constructor
  · rcases Nat.eq_zero_or_pos k with hk | hk
    · subst hk; simp [search_maps, PyScalar.toFloat?, searchAt]
    · have h0 : ¬ (k = 0) := by omega
      have hcl : (listClient ps geo).places query none (a, b) radius = listResp ps := rfl
      simp only [search_maps, PyScalar.toFloat?, searchAt, h0, if_false, hcl,
        pagesLoop_listResp ps geo query (a, b) radius secs ps ps.length k (by omega)]
  · simp [List.length_take]

/-- Claim C5: against a remote that returns a continuation token on every
page (an unbounded stream), `search_maps` still terminates once `n_results`
records are covered, fetching exactly the minimal prefix of pages whose
record counts cover `n_results` (`m₀` places requests, `m₀ - 1` sleeps);
with `n_results = 0` nothing is fetched; and in the concrete scenario of
pages of sizes `[2, 2]` with a token only after page 1 and `n_results = 3`,
exactly 2 pages are fetched, 3 records are returned, and exactly one
`sleep(seconds_between_requests)` occurs, between the two fetches. -/
theorem C5_pagination_termination :
    (∀ (α : Type) (pages : Nat → List α) (geo : List GeoCandidate)
       (query : String) (a b : ℚ) (radius secs : Int) (n m₀ fuel : Nat),
       1 ≤ n → n ≤ cumFrom pages 0 m₀ → (∀ m < m₀, cumFrom pages 0 m < n) →
       m₀ - 1 ≤ fuel →
       search_maps query (.pair (.num a) (.num b)) radius
           (streamClient pages geo) n secs fuel
         = { trace := .places query none (a, b) radius ::
               contTrace query (a, b) radius secs 1 (m₀ - 1),
             outcome := .returned ((flattenFrom pages 0 m₀).take n) }
       ∧ (CallEvent.places query none ((a : ℚ), (b : ℚ)) radius ::
            contTrace query (a, b) radius secs 1 (m₀ - 1)).countP isPlacesEvent = m₀
       ∧ (CallEvent.places query none ((a : ℚ), (b : ℚ)) radius ::
            contTrace query (a, b) radius secs 1 (m₀ - 1)).countP isSleepEvent = m₀ - 1)
  ∧ (∀ (α : Type) (pages : Nat → List α) (geo : List GeoCandidate)
       (query : String) (a b : ℚ) (radius secs : Int) (fuel : Nat),
       search_maps query (.pair (.num a) (.num b)) radius
           (streamClient pages geo) 0 secs fuel
         = { trace := [], outcome := .returned [] })
  ∧ search_maps "bakery" (.pair (.num 48.8566) (.num 2.3522)) 1000
        (listClient [[10, 11], [12, 13]] []) 3 2 2
      = { trace := [.places "bakery" none (48.8566, 2.3522) 1000,
                    .sleep 2,
                    .places "bakery" (some [[12, 13]]) (48.8566, 2.3522) 1000],
          outcome := .returned [10, 11, 12] } := by
  refine ⟨?_, ?_, rfl⟩
  · intro α pages geo query a b radius secs n m₀ fuel h1 h2 h3 hfuel
    have hm : m₀ ≠ 0 := by
      intro h; subst h; simp [cumFrom] at h2; omega
    rcases m₀ with _ | m
    · exact absurd rfl hm
    have h0 : ¬ (n = 0) := by omega
    have hcl : (streamClient pages geo).places query none (a, b) radius
        = ⟨pages 0, some 1⟩ := rfl
    refine ⟨?_, ?_, ?_⟩
    · simp only [search_maps, PyScalar.toFloat?, searchAt, h0, if_false, hcl]
      rw [show (⟨pages 0, some 1⟩ : PlacesResponse α Nat) = ⟨pages 0, some (0+1)⟩ from rfl,
        pagesLoop_stream pages geo query (a, b) radius secs m 0 n fuel h1 h2 h3 (by omega)]
      simp
    · simp [List.countP_cons, isPlacesEvent, contTrace_places_count]
    · simp [List.countP_cons, isSleepEvent, contTrace_sleep_count]
  · intro α pages geo query a b radius secs fuel
    simp [search_maps, PyScalar.toFloat?, searchAt]

/-- Claim C6: for a 2-element pair whose both elements are numeric,
`search_maps` never calls geocode and passes exactly the parsed pair as the
location argument of every places (search) request; if either element is
non-numeric it raises the InvalidCoordinates condition before issuing any
request (the trace is empty). -/
theorem C6_numeric_pair_no_geocode :
    (∀ (α τ : Type) (client : GMapsClient α τ) (query : String) (a b : ℚ)
       (radius secs : Int) (n fuel : Nat),
       (∀ ev ∈ (search_maps query (.pair (.num a) (.num b)) radius
           client n secs fuel).trace, isGeocodeEvent ev = false)
       ∧ (∀ (q' : String) (tok : Option τ) (loc : ℚ × ℚ) (rad : Int),
            CallEvent.places q' tok loc rad ∈ (search_maps query
              (.pair (.num a) (.num b)) radius client n secs fuel).trace →
            loc = (a, b) ∧ q' = query ∧ rad = radius))
  ∧ (∀ (α τ : Type) (client : GMapsClient α τ) (query : String) (x y : PyScalar)
       (radius secs : Int) (n fuel : Nat),
       x.toFloat? = none ∨ y.toFloat? = none →
       search_maps query (.pair x y) radius client n secs fuel
         = { trace := [], outcome := .raised .invalidCoordinates }) := by
  constructor
  · intro α τ client query a b radius secs n fuel
    rcases Nat.eq_zero_or_pos n with hn | hn
    · subst hn
      constructor
      · intro ev hev; simp [search_maps, PyScalar.toFloat?, searchAt] at hev
      · intro q' tok loc rad hmem
        simp [search_maps, PyScalar.toFloat?, searchAt] at hmem
    · have h0 : ¬ (n = 0) := by omega
      have htr : (search_maps query (.pair (.num a) (.num b)) radius
            client n secs fuel).trace
          = CallEvent.places query none (a, b) radius ::
            (pagesLoop client query (a, b) radius secs fuel n
              (client.places query none (a, b) radius)).2 := by
        simp [search_maps, PyScalar.toFloat?, searchAt, h0]
      constructor
      · intro ev hev
        rw [htr] at hev
        rcases List.mem_cons.mp hev with h | h
        · subst h; rfl
        · rcases pagesLoop_events client query (a, b) radius secs fuel n _ ev h with
            h' | ⟨t, h'⟩ <;> subst h' <;> rfl
      · intro q' tok loc rad hmem
        rw [htr] at hmem
        rcases List.mem_cons.mp hmem with h | h
        · injection h with h1 h2 h3 h4
          exact ⟨h3, h1, h4⟩
        · rcases pagesLoop_events client query (a, b) radius secs fuel n _ _ h with
            h' | ⟨t, h'⟩
          · exact absurd h' (by simp)
          · injection h' with h1 h2 h3 h4
            exact ⟨h3, h1, h4⟩
  · intro α τ client query x y radius secs n fuel h
    rcases hx : x.toFloat? with _ | a <;> rcases hy : y.toFloat? with _ | b <;>
      simp [search_maps, hx, hy]
    rw [hx, hy] at h
    simp at h

/-- Claim C7: for a string center location on which the client geocoder
returns no candidate, `search_maps` raises the LocationNotFound condition
and never issues a places (search) request; when geocoding returns at least
one candidate, the first candidate coordinate pair is the location argument
of every places request. -/
theorem C7_empty_geocode :
    (∀ (α τ : Type) (client : GMapsClient α τ) (s query : String)
       (radius secs : Int) (n fuel : Nat),
       client.geocode s = [] →
       search_maps query (.str s) radius client n secs fuel
         = { trace := [.geocode s], outcome := .raised (.locationNotFound s) }
       ∧ ∀ ev ∈ (search_maps query (.str s) radius client n secs fuel).trace,
           isPlacesEvent ev = false)
  ∧ (∀ (α τ : Type) (client : GMapsClient α τ) (s query : String)
       (radius secs : Int) (n fuel : Nat) (c : GeoCandidate) (rest : List GeoCandidate),
       client.geocode s = c :: rest →
       ∀ (q' : String) (tok : Option τ) (loc : ℚ × ℚ) (rad : Int),
         CallEvent.places q' tok loc rad
             ∈ (search_maps query (.str s) radius client n secs fuel).trace →
         loc = (c.lat, c.lng)) := by
  constructor
  · intro α τ client s query radius secs n fuel h
    have heq : search_maps query (.str s) radius client n secs fuel
        = { trace := [.geocode s], outcome := .raised (.locationNotFound s) } := by
      simp [search_maps, h]
    refine ⟨heq, ?_⟩
    rw [heq]
    intro ev hev
    simp at hev
    subst hev
    rfl
  · intro α τ client s query radius secs n fuel c rest h q' tok loc rad hmem
    rcases Nat.eq_zero_or_pos n with hn | hn
    · subst hn
      simp [search_maps, h, searchAt] at hmem
    · have h0 : ¬ (n = 0) := by omega
      have htr : (search_maps query (.str s) radius client n secs fuel).trace
          = CallEvent.geocode s ::
            CallEvent.places query none (c.lat, c.lng) radius ::
            (pagesLoop client query (c.lat, c.lng) radius secs fuel n
              (client.places query none (c.lat, c.lng) radius)).2 := by
        simp [search_maps, h, searchAt, h0]
      rw [htr] at hmem
      rcases List.mem_cons.mp hmem with hc | hc
  
      · exact absurd hc (by simp)
      · rcases List.mem_cons.mp hc with hc2 | hc2
        · injection hc2
        · rcases pagesLoop_events client query (c.lat, c.lng) radius secs fuel n _ _ hc2 with
            h' | ⟨t, h'⟩
          · exact absurd h' (by simp)
          · injection h' 

/-- Claim C1 (amended): `acquire_maps_search_results_from_different_locations`
processes exactly the sources at original positions in the half-open range
`[start_index, stop_index)`, in order, each once (running the batch equals
running the unsliced batch on the islice of the input, whose element `m` is
the source at original position `start_index + m`); but each processed
element is reported (progress line and ErrorRecord index) with its
slice-relative index, not its original position: `start_index = 2`,
`stop_index = 4` on a 6-element source processes original indices 2 and 3,
reported as 0 and 1. -/
theorem C1_slicing_amended :
    (∀ (σ L R E : Type) (q : String) (srcs : List σ) (w : WriterSpec L R E)
       (gl : σ → Except E L) (gk : Option (σ → Except E L)) (sf : L → Except E R)
       (roe : Bool) (st : Nat) (sp : Option Nat),
       acquire_maps_search_results_from_different_locations q srcs w gl gk sf roe st sp
         = acquire_maps_search_results_from_different_locations q
             (pySlice srcs st sp) w gl gk sf roe 0 none)
  ∧ (∀ (σ : Type) (srcs : List σ) (st sp m : Nat)
       (h : m < (pySlice srcs st (some sp)).length) (h' : st + m < srcs.length),
       (pySlice srcs st (some sp)).get ⟨m, h⟩ = srcs.get ⟨st + m, h'⟩)
  ∧ (∀ (σ : Type) (srcs : List σ) (st m : Nat)
       (h : m < (pySlice srcs st none).length) (h' : st + m < srcs.length),
       (pySlice srcs st none).get ⟨m, h⟩ = srcs.get ⟨st + m, h'⟩)
  ∧ acquire_maps_search_results_from_different_locations "q" [0, 1, 2, 3, 4, 5]
        exWriter exGetLoc none exSearch true 2 (some 4)
      = ([.progress 0 20, .write (.setitem 20 21), .progress 1 30, .write (.setitem 30 31)],
         .ok []) := by
  refine ⟨fun _ _ _ _ _ _ _ _ _ _ _ _ _ => rfl, ?_, ?_, by decide⟩
  · intro σ srcs st sp m h h'
    simp [pySlice, List.get_eq_getElem, List.getElem_drop, List.getElem_take]
  · intro σ srcs st m h h'
    simp [pySlice, List.get_eq_getElem, List.getElem_drop]

/-- Claim C1 counterexample: slicing `[start_index=2, stop_index=4)` over six
sources with the source at original position 3 failing in `get_location`
yields the ErrorRecord with index 1 (not 3) and the progress line with
index 0 (not 2): processed elements are reported with slice-relative
positions, refuting the claim that they are reported with their original
positions. -/
theorem C1_counterexample :
    (acquire_maps_search_results_from_different_locations "q" [0, 1, 2, 3, 4, 5]
        exWriter exGetLocFail3 none exSearch false 2 (some 4)).2
      = .ok [⟨1, "q", some 20, "boom"⟩]
    ∧ progressIndices (acquire_maps_search_results_from_different_locations "q"
        [0, 1, 2, 3, 4, 5] exWriter exGetLocFail3 none exSearch false 2 (some 4)).1
      = [0]
    ∧ (acquire_maps_search_results_from_different_locations "q" [0, 1, 2, 3, 4, 5]
        exWriter exGetLocFail3 none exSearch false 2 (some 4)).2
      ≠ .ok [⟨3, "q", some 20, "boom"⟩]
    ∧ progressIndices (acquire_maps_search_results_from_different_locations "q"
        [0, 1, 2, 3, 4, 5] exWriter exGetLocFail3 none exSearch false 2 (some 4)).1
      ≠ [2] := by
  decide

/-- Claim C3: with `raise_on_error = False` and exactly one source (at index
`pre.length`) failing during location extraction, key extraction, search or
persistence, the call returns exactly one ErrorRecord whose index field is
that source position, and the sink receives exactly one write per other
index, in order, and no write for the failing one. -/
theorem C3_single_error_isolation {σ L R E : Type} (q : String) (w : WriterSpec L R E)
    (gl gk : σ → Except E L) (sf : L → Except E R)
    (pre post : List σ) (bad : σ) (e : E)
    (hpre : ∀ s ∈ pre, ∃ t, itemResult gl gk sf (ensure_kv_writer w) s = .ok t)
    (hpost : ∀ s ∈ post, ∃ t, itemResult gl gk sf (ensure_kv_writer w) s = .ok t)
    (hbad : itemResult gl gk sf (ensure_kv_writer w) bad = .error e) :
    (acquire_maps_search_results_from_different_locations q (pre ++ bad :: post)
        w gl (some gk) sf false 0 none).2
      = .ok [⟨pre.length, q, locUpd gl (locAfter gl none pre) bad, e⟩]
    ∧ writeEvents (acquire_maps_search_results_from_different_locations q
        (pre ++ bad :: post) w gl (some gk) sf false 0 none).1
      = pre.filterMap (okWrite gl gk sf (ensure_kv_writer w))
        ++ post.filterMap (okWrite gl gk sf (ensure_kv_writer w))
    ∧ (pre.filterMap (okWrite gl gk sf (ensure_kv_writer w))).length = pre.length
    ∧ (post.filterMap (okWrite gl gk sf (ensure_kv_writer w))).length = post.length := by
  refine ⟨?_, ?_, filterMap_okWrite_length gl gk sf (ensure_kv_writer w) pre hpre,
    filterMap_okWrite_length gl gk sf (ensure_kv_writer w) post hpost⟩
  · rw [acquire_as_batchLoop]
    show (batchLoop q gl gk sf (ensure_kv_writer w) false 0 none (pre ++ bad :: post)).2 = _
    rw [batchLoop_false_snd, expectedErrors_append,
      expectedErrors_allOk q gl gk sf (ensure_kv_writer w) pre 0 none hpre,
      expectedErrors, hbad,
      expectedErrors_allOk q gl gk sf (ensure_kv_writer w) post _ _ hpost]
    simp
  · rw [acquire_as_batchLoop]
    show writeEvents (batchLoop q gl gk sf (ensure_kv_writer w) false 0 none
      (pre ++ bad :: post)).1 = _
    rw [batchLoop_false_writes, List.filterMap_append, List.filterMap_cons]
    simp [okWrite, hbad]

/-- Claim C4: with `raise_on_error = True`, the first exception raised while
processing any element propagates unchanged, no ErrorRecord is produced,
no later element is processed, and the sink holds exactly one write per
index processed before the failing one; consequently whenever the call
returns a list at all, that list is empty. -/
theorem C4_raise_on_error_abort :
    (∀ (σ L R E : Type) (q : String) (w : WriterSpec L R E)
       (gl gk : σ → Except E L) (sf : L → Except E R)
       (pre post : List σ) (bad : σ) (e : E),
       (∀ s ∈ pre, ∃ t, itemResult gl gk sf (ensure_kv_writer w) s = .ok t) →
       itemResult gl gk sf (ensure_kv_writer w) bad = .error e →
       (acquire_maps_search_results_from_different_locations q (pre ++ bad :: post)
           w gl (some gk) sf true 0 none).2 = .error e
       ∧ writeEvents (acquire_maps_search_results_from_different_locations q
           (pre ++ bad :: post) w gl (some gk) sf true 0 none).1
         = pre.filterMap (okWrite gl gk sf (ensure_kv_writer w))
       ∧ (pre.filterMap (okWrite gl gk sf (ensure_kv_writer w))).length = pre.length)
  ∧ (∀ (σ L R E : Type) (q : String) (w : WriterSpec L R E)
       (gl gk : σ → Except E L) (sf : L → Except E R) (srcs : List σ)
       (st : Nat) (sp : Option Nat) (l : List (ErrorRecord L E)),
       (acquire_maps_search_results_from_different_locations q srcs
           w gl (some gk) sf true st sp).2 = .ok l → l = []) := by
  constructor
  · intro σ L R E q w gl gk sf pre post bad e hpre hbad
    have habort := batchLoop_true_abort q gl gk sf (ensure_kv_writer w) e pre bad post
      0 none hpre hbad
    exact ⟨by rw [acquire_as_batchLoop]; exact habort.1,
      by rw [acquire_as_batchLoop]; exact habort.2,
      filterMap_okWrite_length gl gk sf (ensure_kv_writer w) pre hpre⟩
  · intro σ L R E q w gl gk sf srcs st sp l h
    rw [acquire_as_batchLoop] at h
    exact batchLoop_true_ok_empty q gl gk sf (ensure_kv_writer w) _ 0 none l h

/-- Claim C8: leaving `get_key` unspecified makes it default to
`get_location`, so the key under which a source result list is persisted
equals the location extracted from that same source by `get_location` (the
successful item outcome has key = location, and its write effect is keyed
by that location). -/
theorem C8_default_key_is_location :
    (∀ (σ L R E : Type) (q : String) (srcs : List σ) (w : WriterSpec L R E)
       (gl : σ → Except E L) (sf : L → Except E R) (roe : Bool)
       (st : Nat) (sp : Option Nat),
       acquire_maps_search_results_from_different_locations q srcs w gl none sf roe st sp
         = acquire_maps_search_results_from_different_locations q srcs w gl (some gl)
             sf roe st sp)
  ∧ (∀ (σ L R E : Type) (w : WriterSpec L R E) (gl : σ → Except E L)
       (sf : L → Except E R) (s : σ) (l k : L) (wr : WriteEffect L R),
       itemResult gl gl sf (ensure_kv_writer w) s = .ok (l, k, wr) →
       k = l ∧ ∃ r', wr = .setitem l r' ∨ wr = .call l r') := by
  constructor
  · intro σ L R E q srcs w gl sf roe st sp
    rfl
  · intro σ L R E w gl sf s l k wr h
    rcases h1 : gl s with e1 | l' <;> simp [itemResult, h1] at h
    rcases h3 : sf l' with e3 | r <;> simp [h3] at h
    rcases h4 : ensure_kv_writer w l' r with e4 | wr' <;> simp [h4] at h
    obtain ⟨hl, hk, hw⟩ := h
    subst hl; subst hk; subst hw
    rcases ensure_kv_writer_ok h4 with h' | h' <;> exact ⟨rfl, r, by simp [h']⟩

/-- Claim C9 counterexample: in a 2-source batch whose first source resolves
to location 10 and whose second source fails inside `get_location`, the
ErrorRecord for the second source carries `location = some 10` - the
location resolved for an earlier source - and not an absent location,
refuting the claim. -/
theorem C9_counterexample :
    (acquire_maps_search_results_from_different_locations "q" [1, 2]
        exWriter exGetLocFail2 none exSearch false 0 none).2
      = .ok [⟨1, "q", some 10, "boom"⟩]
    ∧ (acquire_maps_search_results_from_different_locations "q" [1, 2]
        exWriter exGetLocFail2 none exSearch false 0 none).2
      ≠ .ok [⟨1, "q", none, "boom"⟩] := by
  decide

/-- Claim C9 (amended): with `raise_on_error = False`, a source failing
inside `get_location` yields an ErrorRecord with its index, the query and
the exception, whose location field holds the value of the loop's location
variable: the most recently resolved location of an earlier source in the
batch, and absent (`none`) only when no earlier `get_location` call
succeeded. -/
theorem C9_amended_stale_location {σ L R E : Type} (q : String) (w : WriterSpec L R E)
    (gl gk : σ → Except E L) (sf : L → Except E R)
    (pre post : List σ) (bad : σ) (e : E) (hbad : gl bad = .error e) :
    ∃ errs, (acquire_maps_search_results_from_different_locations q (pre ++ bad :: post)
        w gl (some gk) sf false 0 none).2 = .ok errs
      ∧ (⟨pre.length, q, locAfter gl none pre, e⟩ : ErrorRecord L E) ∈ errs := by
  refine ⟨expectedErrors q gl gk sf (ensure_kv_writer w) 0 none (pre ++ bad :: post),
    ?_, ?_⟩
  · rw [acquire_as_batchLoop]
    exact batchLoop_false_snd q gl gk sf (ensure_kv_writer w) _ 0 none
  · rw [expectedErrors_append, expectedErrors,
      itemResult_gl_err gl gk sf (ensure_kv_writer w) hbad]
    refine List.mem_append_right _ ?_
    simp [locUpd, hbad]

/-- Claim C10: `ensure_kv_writer` turns a non-callable mapping sink into the
item assignment `m[key] = value`, turns a callable sink into the call
`f(key, value)`, and checks callable first, so an object that is both a
mapping and callable is invoked as a callable; the batch driver persists
through this normalized writer (its write event is the normalized writer's
effect). -/
theorem C10_kv_writer_normalization :
    (∀ (K V E : Type) (w : WriterSpec K V E) (k : K) (v : V),
       w.raises k v = none →
       (w.isCallable = false → w.isMapping = true →
         ensure_kv_writer w k v = .ok (.setitem k v))
       ∧ (w.isCallable = true → ensure_kv_writer w k v = .ok (.call k v))
       ∧ (w.isCallable = true → w.isMapping = true →
         ensure_kv_writer w k v = .ok (.call k v)))
  ∧ (∀ (σ L R E : Type) (q : String) (w : WriterSpec L R E)
       (gl : σ → Except E L) (sf : L → Except E R) (s : σ) (l : L) (r' : R),
       gl s = .ok l → sf l = .ok r' → w.raises l r' = none →
       ∃ wr, ensure_kv_writer w l r' = .ok wr
         ∧ acquire_maps_search_results_from_different_locations q [s] w gl none sf
             false 0 none
           = ([.progress 0 l, .write wr], .ok [])) := by
  constructor
  · intro K V E w k v hr
    refine ⟨fun hc _ => ?_, fun hc => ?_, fun hc _ => ?_⟩ <;>
      simp [ensure_kv_writer, hc, hr]
  · intro σ L R E q w gl sf s l r' hgl hsf hr
    have hwr : ensure_kv_writer w l r'
        = .ok (if w.isCallable then .call l r' else .setitem l r') := by
      rcases hc : w.isCallable <;> simp [ensure_kv_writer, hc, hr]
    refine ⟨_, hwr, ?_⟩
    have hitem : itemResult gl gl sf (ensure_kv_writer w) s
        = .ok (l, l, if w.isCallable then .call l r' else .setitem l r') := by
      simp [itemResult, hgl, hsf, hwr]
    have : acquire_maps_search_results_from_different_locations q [s] w gl none sf
        false 0 none
      = batchLoop q gl gl sf (ensure_kv_writer w) false 0 none [s] := rfl
    rw [this, batchLoop, runItem_ok gl gl sf (ensure_kv_writer w) 0 none hitem]
    simp [batchLoop]

/-- Witness for C1: the slice element at offset 1 of `[2, 4)` is the source
at original position 3. -/
theorem C1_witness :
    (pySlice [0, 1, 2, 3, 4, 5] 2 (some 4)).get ⟨1, by decide⟩
      = ([0, 1, 2, 3, 4, 5] : List Nat).get ⟨2 + 1, by decide⟩ :=
  C1_slicing_amended.2.1 Nat [0, 1, 2, 3, 4, 5] 2 4 1 (by decide) (by decide)

/-- Witness for C3: five sources with source 2 failing in `get_location`
give one ErrorRecord with index 2 and sink writes for the four others. -/
theorem C3_witness :
    (acquire_maps_search_results_from_different_locations "q" ([0, 1] ++ 2 :: [3, 4])
        exWriter exGetLocFail2 (some exGetLoc) exSearch false 0 none).2
      = .ok [⟨2, "q", some 10, "boom"⟩]
    ∧ writeEvents (acquire_maps_search_results_from_different_locations "q"
        ([0, 1] ++ 2 :: [3, 4]) exWriter exGetLocFail2 (some exGetLoc) exSearch
        false 0 none).1
      = [.setitem 0 1, .setitem 10 11] ++ [.setitem 30 31, .setitem 40 41]
    ∧ ([.setitem (0 : Nat) (1 : Nat), .setitem 10 11] : List (WriteEffect Nat Nat)).length = 2
    ∧ ([.setitem (30 : Nat) (31 : Nat), .setitem 40 41] : List (WriteEffect Nat Nat)).length = 2 :=
  C3_single_error_isolation "q" exWriter exGetLocFail2 exGetLoc exSearch
    [0, 1] [3, 4] 2 "boom"
    (by intro s hs; simp at hs; rcases hs with h | h <;> subst h <;> exact ⟨_, rfl⟩)
    (by intro s hs; simp at hs; rcases hs with h | h <;> subst h <;> exact ⟨_, rfl⟩)
    rfl

/-- Witness for C4: same five sources with `raise_on_error = True` abort
with the original exception and writes only for indices 0 and 1. -/
theorem C4_witness :
    (acquire_maps_search_results_from_different_locations "q" ([0, 1] ++ 2 :: [3, 4])
        exWriter exGetLocFail2 (some exGetLoc) exSearch true 0 none).2
      = .error "boom"
    ∧ writeEvents (acquire_maps_search_results_from_different_locations "q"
        ([0, 1] ++ 2 :: [3, 4]) exWriter exGetLocFail2 (some exGetLoc) exSearch
        true 0 none).1
      = [.setitem 0 1, .setitem 10 11]
    ∧ ([.setitem (0 : Nat) (1 : Nat), .setitem 10 11] : List (WriteEffect Nat Nat)).length = 2 :=
  C4_raise_on_error_abort.1 Nat Nat Nat String "q" exWriter exGetLocFail2 exGetLoc
    exSearch [0, 1] [3, 4] 2 "boom"
    (by intro s hs; simp at hs; rcases hs with h | h <;> subst h <;> exact ⟨_, rfl⟩)
    rfl

/-- Witness for C5: an unbounded stream of 2-record pages with
`n_results = 3` fetches exactly 2 pages with one sleep in between. -/
theorem C5_witness :
    search_maps "q" (.pair (.num 1) (.num 2)) 5 (streamClient exPages []) 3 4 1
      = { trace := [.places "q" none (1, 2) 5, .sleep 4, .places "q" (some 1) (1, 2) 5],
          outcome := .returned [0, 1, 2] }
    ∧ ([.places "q" none ((1 : ℚ), (2 : ℚ)) 5, .sleep 4,
        .places "q" (some 1) (1, 2) 5] : List (CallEvent Nat)).countP isPlacesEvent = 2
    ∧ ([.places "q" none ((1 : ℚ), (2 : ℚ)) 5, .sleep 4,
        .places "q" (some 1) (1, 2) 5] : List (CallEvent Nat)).countP isSleepEvent = 1 :=
  C5_pagination_termination.1 Nat exPages [] "q" 1 2 5 4 3 2 1
    (by decide) (by decide) (by decide) (by decide)

/-- Witness for C6: a numeric-pair search has a geocode-free trace, and a
pair with a non-numeric member raises InvalidCoordinates with no request. -/
theorem C6_witness :
    isGeocodeEvent (CallEvent.places "q" (none : Option (List (List Nat))) (1, 2) 100)
      = false
    ∧ search_maps "q" (.pair (.num 1) (.nonNum "x")) 100 exClient 3 2 5
      = { trace := [], outcome := .raised .invalidCoordinates } :=
  ⟨(C6_numeric_pair_no_geocode.1 Nat (List (List Nat)) exClient "q" 1 2 100 2 3 5).1
      _ (by decide),
   C6_numeric_pair_no_geocode.2 Nat (List (List Nat)) exClient "q" (.num 1)
      (.nonNum "x") 100 2 3 5 (Or.inr rfl)⟩

/-- Witness for C7: a client geocoding nothing makes `search_maps` raise
LocationNotFound with only the geocode request in its trace. -/
theorem C7_witness :
    search_maps "x" (.str "nowhere") 100 exClient 3 2 5
      = { trace := [.geocode "nowhere"], outcome := .raised (.locationNotFound "nowhere") } :=
  (C7_empty_geocode.1 Nat (List (List Nat)) exClient "nowhere" "x" 100 2 3 5 rfl).1

/-- Witness for C8: with the defaulted key extractor, the successful item
for source 1 persists under key 10 = its extracted location. -/
theorem C8_witness :
    (10 : Nat) = 10
    ∧ ∃ r', WriteEffect.setitem (10 : Nat) (11 : Nat) = .setitem 10 r'
        ∨ WriteEffect.setitem (10 : Nat) (11 : Nat) = .call 10 r' :=
  C8_default_key_is_location.2 Nat Nat Nat String exWriter exGetLoc exSearch 1
    10 10 (.setitem 10 11) rfl

/-- Witness for C9: a batch whose second source fails in `get_location`
records the first source's resolved location in the error record. -/
theorem C9_witness :
    ∃ errs, (acquire_maps_search_results_from_different_locations "q" [1, 2]
        exWriter exGetLocFail2 (some exGetLoc) exSearch false 0 none).2 = .ok errs
      ∧ (⟨1, "q", some 10, "boom"⟩ : ErrorRecord Nat String) ∈ errs :=
  C9_amended_stale_location "q" exWriter exGetLocFail2 exGetLoc exSearch
    [1] [] 2 "boom" rfl

/-- Witness for C10: the mapping sink is normalized to item assignment and
the single-source batch persists through it. -/
theorem C10_witness :
    ensure_kv_writer exWriter 5 6 = .ok (.setitem 5 6)
    ∧ ∃ wr, ensure_kv_writer exWriter 10 11 = .ok wr
        ∧ acquire_maps_search_results_from_different_locations "q" [1] exWriter
            exGetLoc none exSearch false 0 none
          = ([.progress 0 10, .write wr], .ok []) :=
  ⟨(C10_kv_writer_normalization.1 Nat Nat String exWriter 5 6 rfl).1 rfl rfl,
   C10_kv_writer_normalization.2 Nat Nat Nat String "q" exWriter exGetLoc exSearch
     1 10 11 rfl rfl rfl⟩

end Ug
